import Mathlib

/-!
Verification development for the fuglelyd_mc bird-sound analysis pipeline.

Shallow embedding of the enrichment, taxonomy-resolution, timestamp-extraction,
temporal-analysis and segment-selection code:
  * src/functions/artskart_api.py      (fetch_artskart_taxon_info_by_name)
  * src/analyser_lyd_main.py           (initialize_dataframe, get_norwegian_popular_name,
                                        enrich_detections_with_taxonomy)
  * src/functions/temporal_analysis.py (extract_timestamp_from_filename,
                                        add_real_timestamps, analyze_daily_activity_patterns,
                                        analyze_species_temporal_patterns)
  * src/functions/splitter_lydfilen.py (split_audio_by_detection, selection step)

Python floats appearing in the analysed code paths are modelled as rationals
(the concrete values involved in the claims are exactly representable),
machine-level details of pandas are modelled by their documented list-level
semantics, and network calls are modelled by passing the service response
(or a resolver function) as an explicit argument.
-/

namespace Fuglelyd

/-! ## Generic helpers -/

/-- First-occurrence deduplication, with an accumulator of already seen keys.
Models the key order produced by pandas Series.unique() (first appearance wins). -/
def dedupFirstAux [DecidableEq α] (seen : List α) : List α → List α
  | [] => []
  | x :: xs => if x ∈ seen then dedupFirstAux seen xs else x :: dedupFirstAux (x :: seen) xs

/-- pandas Series.unique(): distinct values in order of first appearance. -/
def dedupFirst [DecidableEq α] (l : List α) : List α := dedupFirstAux [] l

theorem mem_dedupFirstAux [DecidableEq α] (l : List α) :
    ∀ (seen : List α) (x : α), x ∈ dedupFirstAux seen l ↔ x ∈ l ∧ x ∉ seen := by
  induction l with
  | nil => intro seen x; simp [dedupFirstAux]
  | cons a t ih =>
    intro seen x
    by_cases ha : a ∈ seen
    · simp only [dedupFirstAux, if_pos ha, ih, List.mem_cons]
      by_cases hxa : x = a
      · subst hxa; tauto
      · tauto
    · simp only [dedupFirstAux, if_neg ha, ih, List.mem_cons]
      by_cases hxa : x = a
      · subst hxa; tauto
      · tauto

theorem mem_dedupFirst [DecidableEq α] (l : List α) (x : α) :
    x ∈ dedupFirst l ↔ x ∈ l := by
  simp [dedupFirst, mem_dedupFirstAux]

/-- Association-list lookup (models a Python dict built by successive inserts of
fresh keys; key order in the list is insertion order). -/
def cacheFind (c : List (String × α)) (n : String) : Option α :=
  match c with
  | [] => none
  | (k, v) :: rest => if k = n then some v else cacheFind rest n

theorem cacheFind_append (c d : List (String × α)) (n : String) :
    cacheFind (c ++ d) n =
      match cacheFind c n with
      | some v => some v
      | none => cacheFind d n := by
  induction c with
  | nil => simp [cacheFind]
  | cons p rest ih =>
    by_cases hk : p.1 = n
    · simp [cacheFind, hk]
    · simp [cacheFind, hk, ih]

/-! ## Artskart taxonomy service model (src/functions/artskart_api.py)

A service response is a JSON list of taxon objects; each object is a dict and
optional keys are modelled with Option.  A failed call (network error, HTTP
error, non-list or malformed JSON) is modelled as a response of none: every
exception path of fetch_artskart_taxon_info_by_name returns None. -/

/-- One entry of a taxon object's "ScientificNames" list. -/
structure SciNameEntry where
  ScientificName : Option String
  Accepted : Option Bool
deriving DecidableEq

/-- One entry of a taxon object's "PopularNames" list
(dict with keys "Name", "language", "Preffered" [sic]; get defaults: "" and False). -/
structure PopularNameEntry where
  Name : Option String
  language : String
  preferred : Bool
deriving DecidableEq

/-- A taxon object returned by the Artskart public API (the fields read by the code). -/
structure ArtsTaxon where
  ValidScientificName : Option String
  ValidScientificNameId : Option Int
  ScientificNames : Option (List SciNameEntry)
  PopularNames : Option (List PopularNameEntry)
  Family : Option String
  Order : Option String
  Status : Option String
deriving DecidableEq

/-- Does this candidate carry an entry of its "ScientificNames" list equal to the
searched name and flagged Accepted is True?  (second matching loop of the source). -/
def hasAcceptedAltName (name : String) (t : ArtsTaxon) : Bool :=
  match t.ScientificNames with
  | some entries => entries.any (fun e => e.ScientificName == some name && e.Accepted == some true)
  | none => false

/-- fetch_artskart_taxon_info_by_name, src/functions/artskart_api.py lines 15-87,
with the HTTP layer abstracted into the response argument (none = failed call or
non-list payload).  Mirrors the source control flow: empty list check, first loop
over exact ValidScientificName matches, second loop over accepted alternate names,
then the first-result fallback. -/
def fetch_artskart_taxon_info_by_name (response : Option (List ArtsTaxon))
    (scientific_name_str : String) : Option ArtsTaxon :=
  match response with
  | none => none
  | some results =>
    if results.isEmpty then none
    else
      match results.find? (fun t => t.ValidScientificName == some scientific_name_str) with
      | some t => some t
      | none =>
        match results.find? (hasAcceptedAltName scientific_name_str) with
        | some t => some t
        | none => results.head?

/-- Modelled from the spec: the ordered first-success matching policy of §4.1 /
claim C3 — (1) first candidate whose canonical-name field equals the name exactly,
(2) else first candidate with an accepted alternate-name entry equal to the name,
(3) else the first candidate when at least one exists, (4) none when the service
returned zero candidates or the call failed. -/
def resolve_policy_spec (response : Option (List ArtsTaxon)) (name : String) :
    Option ArtsTaxon :=
  match response with
  | none => none
  | some results =>
    (results.find? (fun t => t.ValidScientificName == some name)) <|>
      (results.find? (hasAcceptedAltName name)) <|>
        results.head?

/-- C3: the resolver chooses by the ordered policy — exact canonical-name match
first, then accepted alternate-name match, then first candidate, and none when
the service returns zero candidates or the call fails. -/
theorem resolver_follows_ordered_policy (response : Option (List ArtsTaxon))
    (name : String) :
    fetch_artskart_taxon_info_by_name response name = resolve_policy_spec response name := by
  cases response with
  | none => rfl
  | some results =>
    cases results with
    | nil => rfl
    | cons t rest =>
      simp only [fetch_artskart_taxon_info_by_name, resolve_policy_spec, List.isEmpty_cons,
        Bool.false_eq_true, if_false]
      cases h1 : (t :: rest).find? (fun u => u.ValidScientificName == some name) with
      | some u => simp [h1]
      | none =>
        cases h2 : (t :: rest).find? (hasAcceptedAltName name) with
        | some u => simp [h1, h2]
        | none => simp [h1, h2]

/-! ## Detection enrichment model (src/analyser_lyd_main.py)

A Detection models one row of the BirdNET detections DataFrame.  A missing
scientific_name key and a NaN value both appear to the enrichment code as null,
and the scientific_name column exists in the DataFrame iff some input dict
carried the key; so scientific_name = none models both "column absent for this
row" and NaN, and the column-missing-or-all-null guard of the source becomes
"every row's scientific_name is none". -/

structure Detection where
  scientific_name : Option String
  confidence : Rat
  start_time : Rat
  end_time : Rat
  filepath : String
  filename : String
deriving DecidableEq

/-- One row of the enriched DataFrame: the original Detection columns (never
reassigned by the source) plus the derived taxonomy columns. -/
structure EnrichedDetection where
  det : Detection
  validScientificNameId : Option Int
  Species_NorwegianName : Option String
  Family_ScientificName : Option String
  Family_NorwegianName : Option String
  Order_ScientificName : Option String
  Order_NorwegianName : Option String
  Redlist_Status : Option String
deriving DecidableEq

/-- The freshly initialized derived columns (all pd.NA), as set up by
initialize_dataframe and left untouched for a row whose taxon was not resolved. -/
def blank_enriched (r : Detection) : EnrichedDetection :=
  { det := r
    validScientificNameId := none
    Species_NorwegianName := none
    Family_ScientificName := none
    Family_NorwegianName := none
    Order_ScientificName := none
    Order_NorwegianName := none
    Redlist_Status := none }

/-- initialize_dataframe, src/analyser_lyd_main.py lines 58-87: an empty
detection list yields None ("No detections were found"); otherwise the
DataFrame is returned — including when the scientific_name column is missing,
where the source only logs an error and still returns the frame. -/
def initialize_dataframe (detections_list : List Detection) : Option (List Detection) :=
  if detections_list.isEmpty then none else some detections_list

/-- get_norwegian_popular_name, src/analyser_lyd_main.py lines 90-105.
A non-list or empty PopularNames value is modelled as none/some [] (both falsy).
Pass 1 returns the Name of the first entry whose lowercased language starts
with "nb" and whose Preffered flag is set; pass 2 drops the flag requirement.
The Name of the found entry is returned even when that key is missing. -/
def get_norwegian_popular_name (popular_names_list : Option (List PopularNameEntry)) :
    Option String :=
  match popular_names_list with
  | none => none
  | some [] => none
  | some entries =>
    match entries.find? (fun p => p.language.toLower.startsWith "nb" && p.preferred) with
    | some p => p.Name
    | none =>
      match entries.find? (fun p => p.language.toLower.startsWith "nb") with
      | some p => p.Name
      | none => none

/-- The source keeps a truthy species_nor_name only:
None and the empty string both become pd.NA. -/
def falsy_to_none (s : Option String) : Option String :=
  match s with
  | some str => if str = "" then none else some str
  | none => none

/-- Redlist_Status post-processing, src/analyser_lyd_main.py lines 199-203:
if the status string contains a comma keep the first comma-separated part,
stripped; otherwise keep the value unchanged. -/
def normalize_redlist_status (s : Option String) : Option String :=
  match s with
  | some str =>
    if str.contains ',' then some (((str.splitOn ",").headD "").trim) else some str
  | none => none

/-- The run-level state of the enrichment: the Artskart response cache
(dict scientific name -> taxon info or None) together with the log of names
for which the external service was actually queried. -/
structure EnrichState where
  cache : List (String × Option ArtsTaxon)
  log : List String

/-- One fetch loop over a list of names (the source runs three such loops:
unique scientific names, unique family names, unique order names).  A name
already present in the cache is not re-fetched; otherwise the resolver is
invoked once and its outcome — None included — is stored. -/
def processNames (resolver : String → Option ArtsTaxon) :
    List String → EnrichState → EnrichState
  | [], st => st
  | n :: ns, st =>
    if (cacheFind st.cache n).isSome then processNames resolver ns st
    else processNames resolver ns ⟨st.cache ++ [(n, resolver n)], st.log ++ [n]⟩

/-- Norwegian popular name derived from a cached fetch outcome (the family and
order loops store get_norwegian_popular_name of the fetched info, or None when
the fetch failed). -/
def norwegian_from_taxon (t : Option ArtsTaxon) : Option String :=
  match t with
  | some ti => get_norwegian_popular_name ti.PopularNames
  | none => none

/-- The per-row application loop, src/analyser_lyd_main.py lines 156-203:
look the row's scientific name up in the cache; a truthy dict populates the
derived columns, anything else leaves them all pd.NA. -/
def apply_taxon_info (cache : List (String × Option ArtsTaxon)) (r : Detection) :
    EnrichedDetection :=
  match r.scientific_name.bind (fun n => (cacheFind cache n).join) with
  | some ti =>
    { det := r
      validScientificNameId := ti.ValidScientificNameId
      Species_NorwegianName := falsy_to_none (get_norwegian_popular_name ti.PopularNames)
      Family_ScientificName := ti.Family
      Family_NorwegianName := none
      Order_ScientificName := ti.Order
      Order_NorwegianName := none
      Redlist_Status := normalize_redlist_status ti.Status }
  | none => blank_enriched r

/-- Second-pass column fill for Family_NorwegianName (map over the family cache). -/
def fill_family_norwegian (cache : List (String × Option ArtsTaxon))
    (e : EnrichedDetection) : EnrichedDetection :=
  { e with Family_NorwegianName :=
      e.Family_ScientificName.bind (fun n => norwegian_from_taxon ((cacheFind cache n).join)) }

/-- Second-pass column fill for Order_NorwegianName (map over the order cache). -/
def fill_order_norwegian (cache : List (String × Option ArtsTaxon))
    (e : EnrichedDetection) : EnrichedDetection :=
  { e with Order_NorwegianName :=
      e.Order_ScientificName.bind (fun n => norwegian_from_taxon ((cacheFind cache n).join)) }

/-- The value of the enrichment run: the enriched rows, plus the run state made
observable (call log and final cache) so the caching invariants can be stated. -/
structure EnrichResult where
  out : List EnrichedDetection
  callLog : List String
  cache : List (String × Option ArtsTaxon)

/-- enrich_detections_with_taxonomy, src/analyser_lyd_main.py lines 108-284,
with fetch_artskart_taxon_info_by_name abstracted as the resolver argument.
Guard: a missing or all-null scientific_name column skips enrichment and
returns the frame unchanged.  Main path: fetch loop over unique scientific
names, per-row application, then the family-name and order-name fetch loops
reusing the same cache. -/
def enrich_detections_with_taxonomy (resolver : String → Option ArtsTaxon)
    (rows : List Detection) : EnrichResult :=
  if rows.all (fun r => r.scientific_name.isNone) then
    ⟨rows.map blank_enriched, [], []⟩
  else
    let names := dedupFirst (rows.filterMap (fun r => r.scientific_name))
    let st1 := processNames resolver names ⟨[], []⟩
    let base := rows.map (apply_taxon_info st1.cache)
    let famNames := dedupFirst (base.filterMap (fun e => e.Family_ScientificName))
    let st2 := processNames resolver famNames st1
    let base2 := base.map (fill_family_norwegian st2.cache)
    let ordNames := dedupFirst (base2.filterMap (fun e => e.Order_ScientificName))
    let st3 := processNames resolver ordNames st2
    ⟨base2.map (fill_order_norwegian st3.cache), st3.log, st3.cache⟩

/-! ### Cache invariants -/

/-- Every cache entry records exactly the resolver's outcome for its key. -/
def cacheWF (resolver : String → Option ArtsTaxon)
    (c : List (String × Option ArtsTaxon)) : Prop :=
  ∀ p ∈ c, p.2 = resolver p.1

theorem cacheFind_eq_of_wf (resolver : String → Option ArtsTaxon)
    (c : List (String × Option ArtsTaxon)) (hwf : cacheWF resolver c) (n : String)
    (v : Option ArtsTaxon) (h : cacheFind c n = some v) : v = resolver n := by
  induction c with
  | nil => simp [cacheFind] at h
  | cons p rest ih =>
    by_cases hk : p.1 = n
    · rw [cacheFind, if_pos hk] at h
      have hp := hwf p (List.mem_cons_self p rest)
      cases h
      rw [hp, hk]
    · rw [cacheFind, if_neg hk] at h
      exact ih (fun q hq => hwf q (List.mem_cons_of_mem p hq)) h

theorem processNames_wf (resolver : String → Option ArtsTaxon) (names : List String) :
    ∀ st : EnrichState, cacheWF resolver st.cache →
      cacheWF resolver (processNames resolver names st).cache := by
  induction names with
  | nil => intro st h; exact h
  | cons n ns ih =>
    intro st h
    rw [processNames]
    by_cases hc : (cacheFind st.cache n).isSome
    · rw [if_pos hc]; exact ih st h
    · rw [if_neg hc]
      refine ih _ ?_
      intro p hp
      rcases List.mem_append.mp hp with h1 | h1
      · exact h p h1
      · rcases List.mem_singleton.mp h1 with rfl
        rfl

theorem processNames_mono (resolver : String → Option ArtsTaxon) (names : List String) :
    ∀ (st : EnrichState) (n : String), (cacheFind st.cache n).isSome →
      (cacheFind (processNames resolver names st).cache n).isSome := by
  induction names with
  | nil => intro st n h; exact h
  | cons m ms ih =>
    intro st n h
    rw [processNames]
    by_cases hc : (cacheFind st.cache m).isSome
    · rw [if_pos hc]; exact ih st n h
    · rw [if_neg hc]
      refine ih _ n ?_
      rw [cacheFind_append]
      rcases hfind : cacheFind st.cache n with _ | v
      · rw [hfind] at h; simp at h
      · simp [hfind]

theorem processNames_covers (resolver : String → Option ArtsTaxon) (names : List String) :
    ∀ (st : EnrichState) (n : String), n ∈ names →
      (cacheFind (processNames resolver names st).cache n).isSome := by
  induction names with
  | nil => intro st n h; simp at h
  | cons m ms ih =>
    intro st n h
    rw [processNames]
    by_cases hc : (cacheFind st.cache m).isSome
    · rw [if_pos hc]
      rcases List.mem_cons.mp h with rfl | hmem
      · exact processNames_mono resolver ms st n hc
      · exact ih st n hmem
    · rw [if_neg hc]
      rcases List.mem_cons.mp h with rfl | hmem
      · refine processNames_mono resolver ms _ n ?_
        rw [cacheFind_append]
        rcases hfind : cacheFind st.cache n with _ | v
        · simp [cacheFind]
        · simp [hfind]
      · exact ih _ n hmem

theorem processNames_resolves (resolver : String → Option ArtsTaxon) (names : List String)
    (st : EnrichState) (hwf : cacheWF resolver st.cache) (n : String) (h : n ∈ names) :
    cacheFind (processNames resolver names st).cache n = some (resolver n) := by
  have hwf2 := processNames_wf resolver names st hwf
  have hsome := processNames_covers resolver names st n h
  rcases hfind : cacheFind (processNames resolver names st).cache n with _ | v
  · rw [hfind] at hsome; simp at hsome
  · rw [cacheFind_eq_of_wf resolver _ hwf2 n v hfind]

/-! ### Row-level helper lemmas -/

theorem apply_taxon_info_det (c : List (String × Option ArtsTaxon)) (r : Detection) :
    (apply_taxon_info c r).det = r := by
  unfold apply_taxon_info
  split
  · rfl
  · rfl

theorem fill_family_det (c : List (String × Option ArtsTaxon)) (e : EnrichedDetection) :
    (fill_family_norwegian c e).det = e.det := rfl

theorem fill_order_det (c : List (String × Option ArtsTaxon)) (e : EnrichedDetection) :
    (fill_order_norwegian c e).det = e.det := rfl

theorem fill_family_blank (c : List (String × Option ArtsTaxon)) (r : Detection) :
    fill_family_norwegian c (blank_enriched r) = blank_enriched r := rfl

theorem fill_order_blank (c : List (String × Option ArtsTaxon)) (r : Detection) :
    fill_order_norwegian c (blank_enriched r) = blank_enriched r := rfl

theorem apply_taxon_info_none (c : List (String × Option ArtsTaxon)) (r : Detection)
    (n : String) (hn : r.scientific_name = some n) (hc : cacheFind c n = some none) :
    apply_taxon_info c r = blank_enriched r := by
  unfold apply_taxon_info
  rw [hn, Option.some_bind, hc]
  rfl

/-- C1: for every input detection batch, enrichment returns exactly one enriched
record per input detection — the output has the input's length, the i-th output
record carries the i-th input detection's original fields unchanged, and a
detection whose species name the resolver cannot resolve keeps its row with
every derived taxonomy field empty. -/
theorem enrichment_preserves_rows (resolver : String → Option ArtsTaxon)
    (rows : List Detection) :
    (enrich_detections_with_taxonomy resolver rows).out.length = rows.length
    ∧ (∀ i : Nat,
        ((enrich_detections_with_taxonomy resolver rows).out[i]?).map
          EnrichedDetection.det = rows[i]?)
    ∧ (∀ (i : Nat) (r : Detection) (n : String), rows[i]? = some r →
        r.scientific_name = some n → resolver n = none →
        (enrich_detections_with_taxonomy resolver rows).out[i]? =
          some (blank_enriched r)) := by
  by_cases hall : rows.all (fun r => r.scientific_name.isNone)
  · refine ⟨?_, ?_, ?_⟩
    · simp [enrich_detections_with_taxonomy, hall]
    · intro i
      rcases h : rows[i]? with _ | r
      · simp [enrich_detections_with_taxonomy, hall, h]
      · simp [enrich_detections_with_taxonomy, hall, h, blank_enriched]
    · intro i r n hi hn hres
      simp [enrich_detections_with_taxonomy, hall, hi]
  · refine ⟨?_, ?_, ?_⟩
    · simp [enrich_detections_with_taxonomy, hall]
    · intro i
      rcases h : rows[i]? with _ | r
      · simp [enrich_detections_with_taxonomy, hall, h]
      · simp [enrich_detections_with_taxonomy, hall, h, apply_taxon_info_det,
          fill_family_det, fill_order_det]
    · intro i r n hi hn hres
      have hr : r ∈ rows := List.getElem?_mem hi
      have hnames : n ∈ dedupFirst (rows.filterMap (fun d => d.scientific_name)) := by
        rw [mem_dedupFirst]
        exact List.mem_filterMap.mpr ⟨r, hr, hn⟩
      have hwf0 : cacheWF resolver ([] : List (String × Option ArtsTaxon)) := by
        intro p hp
        exact absurd hp (List.not_mem_nil p)
      have hc := processNames_resolves resolver
        (dedupFirst (rows.filterMap (fun d => d.scientific_name))) ⟨[], []⟩ hwf0 n hnames
      rw [hres] at hc
      simp only [enrich_detections_with_taxonomy, hall, Bool.false_eq_true, if_false,
        List.getElem?_map, hi, Option.map_some']
      rw [apply_taxon_info_none _ r n hn hc, fill_family_blank, fill_order_blank]

/-- Sample batch for the C1 witness: one detection whose name no resolver resolves. -/
def c1Det : Detection :=
  { scientific_name := some "Gavia stellata"
    confidence := 1
    start_time := 0
    end_time := 3
    filepath := "in/x.wav"
    filename := "x.wav" }

/-- Witness for C1: at the one-detection batch above with a resolver that finds
nothing, the unresolved row is kept with all derived fields empty. -/
theorem enrichment_preserves_rows_witness :
    (enrich_detections_with_taxonomy (fun _ => none) [c1Det]).out[0]? =
      some (blank_enriched c1Det) :=
  (enrichment_preserves_rows (fun _ => none) [c1Det]).2.2 0 c1Det "Gavia stellata"
    (by decide) (by decide) rfl

/-! ### Call-log invariants for C2 -/

/-- Run-state invariant: no name was queried twice, and every queried name has a
cache entry. -/
def enrichInv (st : EnrichState) : Prop :=
  st.log.Nodup ∧ ∀ m ∈ st.log, (cacheFind st.cache m).isSome

theorem processNames_inv (resolver : String → Option ArtsTaxon) (names : List String) :
    ∀ st : EnrichState, enrichInv st → enrichInv (processNames resolver names st) := by
  induction names with
  | nil => intro st h; exact h
  | cons n ns ih =>
    intro st h
    rw [processNames]
    by_cases hc : (cacheFind st.cache n).isSome
    · rw [if_pos hc]; exact ih st h
    · rw [if_neg hc]
      refine ih _ ⟨?_, ?_⟩
      · rw [List.nodup_append]
        refine ⟨h.1, List.nodup_singleton n, ?_⟩
        intro m hm hmn
        rcases List.mem_singleton.mp hmn with rfl
        exact hc ((h.2 m hm))
      · intro m hm
        rw [cacheFind_append]
        rcases List.mem_append.mp hm with h1 | h1
        · have hs := h.2 m h1
          rcases hfind : cacheFind st.cache m with _ | v
          · rw [hfind] at hs; simp at hs
          · simp [hfind]
        · rcases List.mem_singleton.mp h1 with rfl
          rcases hfind : cacheFind st.cache m with _ | v
          · simp [hfind, cacheFind]
          · simp [hfind]

theorem processNames_chain_inv (resolver : String → Option ArtsTaxon)
    (l1 l2 l3 : List String) :
    enrichInv (processNames resolver l3
      (processNames resolver l2 (processNames resolver l1 ⟨[], []⟩))) := by
  have hinv0 : enrichInv ⟨[], []⟩ := by
    constructor
    · exact List.nodup_nil
    · intro m hm
      exact absurd hm (List.not_mem_nil m)
  exact processNames_inv resolver l3 _ (processNames_inv resolver l2 _
    (processNames_inv resolver l1 _ hinv0))

theorem processNames_chain_resolves (resolver : String → Option ArtsTaxon)
    (l1 l2 l3 : List String) (n : String)
    (hmem : n ∈ (processNames resolver l3
      (processNames resolver l2 (processNames resolver l1 ⟨[], []⟩))).log) :
    cacheFind (processNames resolver l3
      (processNames resolver l2 (processNames resolver l1 ⟨[], []⟩))).cache n =
      some (resolver n) := by
  have hwf0 : cacheWF resolver ([] : List (String × Option ArtsTaxon)) := by
    intro p hp
    exact absurd hp (List.not_mem_nil p)
  have hwf3 := processNames_wf resolver l3 _ (processNames_wf resolver l2 _
    (processNames_wf resolver l1 ⟨[], []⟩ hwf0))
  have hsome := (processNames_chain_inv resolver l1 l2 l3).2 n hmem
  rcases hfind : cacheFind (processNames resolver l3
    (processNames resolver l2 (processNames resolver l1 ⟨[], []⟩))).cache n with _ | v
  · rw [hfind] at hsome; simp at hsome
  · rw [cacheFind_eq_of_wf resolver _ hwf3 n v hfind]

/-- C2: in one enrichment run the external taxonomy service is queried at most
once per distinct name, and every queried name — including one whose lookup
failed — ends up cached with the lookup's outcome (None acting as the negative
marker), so later resolutions of that name are served from the cache. -/
theorem resolver_called_at_most_once (resolver : String → Option ArtsTaxon)
    (rows : List Detection) (n : String) :
    (enrich_detections_with_taxonomy resolver rows).callLog.count n ≤ 1
    ∧ (n ∈ (enrich_detections_with_taxonomy resolver rows).callLog →
        cacheFind (enrich_detections_with_taxonomy resolver rows).cache n =
          some (resolver n)) := by
  by_cases hall : rows.all (fun r => r.scientific_name.isNone)
  · constructor
    · simp [enrich_detections_with_taxonomy, hall]
    · intro hmem
      simp [enrich_detections_with_taxonomy, hall] at hmem
  · simp only [enrich_detections_with_taxonomy, hall, Bool.false_eq_true, if_false]
    constructor
    · exact List.nodup_iff_count_le_one.mp (processNames_chain_inv resolver _ _ _).1 n
    · intro hmem
      exact processNames_chain_resolves resolver _ _ _ n hmem

/-- Sample batch for the C2 witness: the same unresolvable name on two rows. -/
def c2Rows : List Detection :=
  [{ c1Det with start_time := 0, end_time := 3 },
   { c1Det with start_time := 3, end_time := 6 }]

/-- Witness for C2: the name was queried (once) and its failed lookup is cached
as an explicit None marker. -/
theorem resolver_called_at_most_once_witness :
    ("Gavia stellata" ∈ (enrich_detections_with_taxonomy (fun _ => none) c2Rows).callLog)
    ∧ cacheFind (enrich_detections_with_taxonomy (fun _ => none) c2Rows).cache
        "Gavia stellata" = some none :=
  ⟨by decide, (resolver_called_at_most_once (fun _ => none) c2Rows "Gavia stellata").2
    (by decide)⟩

/-! ### C4: batch without a species-name column -/

/-- C4 (amended): a batch in which no detection carries a species name — the
scientific_name column missing entirely or all null — is not rejected; the
source logs a configuration error, skips taxonomy resolution completely (the
resolver is never invoked) and passes every row through unenriched. -/
theorem missing_species_names_skip_enrichment (resolver : String → Option ArtsTaxon)
    (rows : List Detection) (h : ∀ r ∈ rows, r.scientific_name = none) :
    (enrich_detections_with_taxonomy resolver rows).out = rows.map blank_enriched
    ∧ (enrich_detections_with_taxonomy resolver rows).callLog = [] := by
  have hall : rows.all (fun r => r.scientific_name.isNone) = true := by
    rw [List.all_eq_true]
    intro r hr
    rw [h r hr]
    rfl
  constructor
  · simp [enrich_detections_with_taxonomy, hall]
  · simp [enrich_detections_with_taxonomy, hall]

/-- A detection row with no species-name field at all. -/
def c4Det : Detection :=
  { scientific_name := none
    confidence := 1
    start_time := 0
    end_time := 3
    filepath := "in/x.wav"
    filename := "x.wav" }

/-- A resolver that would succeed for every name, to exhibit that it is never
consulted for the C4 batch. -/
def c4Resolver : String → Option ArtsTaxon :=
  fun _ => some
    { ValidScientificName := some "Anything"
      ValidScientificNameId := some 1
      ScientificNames := none
      PopularNames := none
      Family := none
      Order := none
      Status := none }

/-- Counterexample for C4: a batch whose detections have no species-name field is
not rejected — initialize_dataframe returns the batch (its only rejection,
None, is reserved for an empty batch), no taxonomy resolution is attempted, and
the full batch continues through the pipeline. -/
theorem missing_species_names_not_rejected :
    initialize_dataframe [c4Det] = some [c4Det]
    ∧ (enrich_detections_with_taxonomy c4Resolver [c4Det]).callLog = []
    ∧ (enrich_detections_with_taxonomy c4Resolver [c4Det]).out.length = 1 := by
  refine ⟨rfl, ?_, ?_⟩
  · simp [enrich_detections_with_taxonomy, c4Det]
  · simp [enrich_detections_with_taxonomy, c4Det]

/-- Witness for the amended C4 theorem at the concrete one-row batch. -/
theorem missing_species_names_skip_enrichment_witness :
    (enrich_detections_with_taxonomy c4Resolver [c4Det]).out =
      [c4Det].map blank_enriched
    ∧ (enrich_detections_with_taxonomy c4Resolver [c4Det]).callLog = [] :=
  missing_species_names_skip_enrichment c4Resolver [c4Det] (by decide)

/-! ## Temporal analysis model (src/functions/temporal_analysis.py)

A TRow models one row of the DataFrame produced by add_real_timestamps: the
resolved Norwegian species name (NaN as none) and the recovered absolute
detection time.  Naive datetimes are modelled as rational seconds on a timeline
whose origin is a midnight, so every day spans 86400 seconds and
datetime.hour is second-of-day divided by 3600; a row whose filename yielded no
timestamp has detection_datetime none (and hence a NaN hour_of_day). -/

structure TRow where
  Species_NorwegianName : Option String
  detection_datetime : Option Rat
deriving DecidableEq

/-- datetime.hour of a timeline instant (floor to whole seconds, second of day,
hours). -/
def hour_of_day (t : Rat) : Nat := ((t.floor % 86400).toNat) / 3600

/-- The hour_of_day column: NaN (none) exactly when the timestamp is missing. -/
def hourOf (r : TRow) : Option Nat := r.detection_datetime.map hour_of_day

/-- is_dawn_chorus, src/functions/temporal_analysis.py line 100:
hour_of_day.between(4, 8) — pandas between is inclusive on both ends, and NaN
compares false. -/
def is_dawn_chorus (r : TRow) : Bool :=
  match hourOf r with
  | some h => decide (4 ≤ h) && decide (h ≤ 8)
  | none => false

/-- is_evening_activity, line 101: hour_of_day.between(17, 21), inclusive. -/
def is_evening_activity (r : TRow) : Bool :=
  match hourOf r with
  | some h => decide (17 ≤ h) && decide (h ≤ 21)
  | none => false

/-- Sort key for sort_values("detection_datetime"): missing timestamps (NaT)
are placed last. -/
def timeKey (r : TRow) : WithTop Rat :=
  match r.detection_datetime with
  | some x => (x : WithTop Rat)
  | none => ⊤

/-- Row order used by sort_values("detection_datetime"). -/
def timeLE (a b : TRow) : Prop := timeKey a ≤ timeKey b

instance : DecidableRel timeLE := fun a b => inferInstanceAs (Decidable (timeKey a ≤ timeKey b))

instance : IsTotal TRow timeLE := ⟨fun a b => le_total (timeKey a) (timeKey b)⟩

instance : IsTrans TRow timeLE := ⟨fun _ _ _ hab hbc => le_trans hab hbc⟩

/-- species_data.sort_values("detection_datetime"). -/
def sort_values_by_time (df : List TRow) : List TRow := List.insertionSort timeLE df

/-- species_data = df[df["Species_NorwegianName"] == species]. -/
def species_rows (df : List TRow) (s : String) : List TRow :=
  df.filter (fun r => r.Species_NorwegianName == some s)

/-- The species' rows in detection-time order. -/
def species_sorted (df : List TRow) (s : String) : List TRow :=
  sort_values_by_time (species_rows df s)

/-- detection_times = species_data["detection_datetime"].dropna() (time-sorted). -/
def species_times (df : List TRow) (s : String) : List Rat :=
  (species_sorted df s).filterMap (fun r => r.detection_datetime)

/-- The species' hour_of_day values in time-sorted order, NaN dropped
(value_counts drops NaN keys). -/
def species_hours (df : List TRow) (s : String) : List Nat :=
  (species_sorted df s).filterMap hourOf

/-- Ascending-count comparison used to model the sort inside value_counts. -/
def countLE (a b : α × Nat) : Prop := a.2 ≤ b.2

instance : DecidableRel (countLE : α × Nat → α × Nat → Prop) :=
  fun a b => Nat.decLe a.2 b.2

instance : IsTotal (α × Nat) countLE := ⟨fun a b => Nat.le_total a.2 b.2⟩

instance : IsTrans (α × Nat) countLE := ⟨fun _ _ _ hab hbc => Nat.le_trans hab hbc⟩

/-- pandas Series.value_counts(): keys in first-appearance order with their
counts, sorted by count descending.  pandas sorts ascending with a stable sort
and reverses the result, which is modelled literally (stable insertion sort,
then reverse). -/
def value_counts [DecidableEq α] (l : List α) : List (α × Nat) :=
  (List.insertionSort countLE ((dedupFirst l).map (fun k => (k, l.count k)))).reverse

/-- peak_hour = species hourly value_counts idxmax: the first index attaining
the maximum of the count-descending series, i.e. its head. -/
def species_peak_hour (df : List TRow) (s : String) : Option Nat :=
  ((value_counts (species_hours df s)).head?).map (fun p => p.1)

/-- Consecutive differences, Series.diff().dropna() on a sorted series. -/
def consecGaps : List Rat → List Rat
  | a :: b :: t => (b - a) :: consecGaps (b :: t)
  | _ => []

/-- gap_minutes = time_diffs (seconds) / 60. -/
def gap_minutes_of (ts : List Rat) : List Rat := (consecGaps ts).map (fun g => g / 60)

/-- avg_gap_minutes = gap_minutes.mean(). -/
def mean_gap_of (ts : List Rat) : Rat :=
  (gap_minutes_of ts).sum / ((gap_minutes_of ts).length : Rat)

/-- The gap series of one species' detections, in minutes. -/
def species_gap_minutes (df : List TRow) (s : String) : List Rat :=
  gap_minutes_of (species_times df s)

/-- Mean gap in minutes between a species' consecutive detections. -/
def mean_gap_minutes (df : List TRow) (s : String) : Rat :=
  mean_gap_of (species_times df s)

/-- Call-pattern classification, src/functions/temporal_analysis.py lines
219-224: avg < 5 Clustered, else avg < 15 Regular, else Sporadic. -/
def classify_call_pattern (avg : Rat) : String :=
  if avg < 5 then "Clustered" else if avg < 15 then "Regular" else "Sporadic"

/-- The call_pattern classification token of one species (the source embeds it
in a longer formatted string; the surrounding formatting of float values is not
modelled): a type for two or more timestamped detections, "Single call" for
exactly one, nothing for zero. -/
def species_call_pattern (df : List TRow) (s : String) : Option String :=
  if 1 < (species_times df s).length then
    some (classify_call_pattern (mean_gap_minutes df s))
  else if (species_times df s).length = 1 then some "Single call"
  else none

/-- Minimum of a gap list (None on an empty list). -/
def rat_list_min : List Rat → Option Rat
  | [] => none
  | a :: t => some (t.foldl min a)

/-- Maximum of a gap list (None on an empty list). -/
def rat_list_max : List Rat → Option Rat
  | [] => none
  | a :: t => some (t.foldl max a)

/-- gap_statistics: present only when the species has at least two timestamped
detections (avg, min, max; the sample standard deviation is irrational in
general and not referenced by any claim, so it is not modelled). -/
def species_gap_statistics (df : List TRow) (s : String) : Option (Rat × Rat × Rat) :=
  if 1 < (species_times df s).length then
    some (mean_gap_minutes df s,
      (rat_list_min (species_gap_minutes df s)).getD 0,
      (rat_list_max (species_gap_minutes df s)).getD 0)
  else none

/-- The per-species temporal profile fields referenced by the claims. -/
structure SpeciesPattern where
  detection_count : Nat
  peak_hour : Option Nat
  call_pattern : Option String
  gap_statistics : Option (Rat × Rat × Rat)
deriving DecidableEq

/-- One species' profile, src/functions/temporal_analysis.py lines 150-245. -/
def mk_species_pattern (df : List TRow) (s : String) : SpeciesPattern :=
  { detection_count := (species_rows df s).length
    peak_hour := species_peak_hour df s
    call_pattern := species_call_pattern df s
    gap_statistics := species_gap_statistics df s }

/-- The species iterated by analyze_species_temporal_patterns:
df["Species_NorwegianName"].unique() with the pd.isna(species) entries skipped
(equivalently: dropna first, then first-appearance dedup). -/
def species_names_of (df : List TRow) : List String :=
  dedupFirst (df.filterMap (fun r => r.Species_NorwegianName))

/-- analyze_species_temporal_patterns, lines 137-247: a profile per resolved
species name. -/
def analyze_species_temporal_patterns (df : List TRow) : List (String × SpeciesPattern) :=
  (species_names_of df).map (fun s => (s, mk_species_pattern df s))

/-- hourly_activity = df.groupby("hour_of_day").size(): rows counted per hour
regardless of species name; rows with no recovered timestamp have a NaN hour
and fall out of the groupby. -/
def hourly_activity (df : List TRow) (h : Nat) : Nat :=
  (df.filter (fun r => hourOf r == some h)).length

/-- dawn_chorus_species: the key set of
df[df.is_dawn_chorus]["Species_NorwegianName"].value_counts() (NaN dropped). -/
def dawn_chorus_species (df : List TRow) : List String :=
  (value_counts ((df.filter is_dawn_chorus).filterMap
    (fun r => r.Species_NorwegianName))).map (fun p => p.1)

/-- evening_activity_species: the key set of
df[df.is_evening_activity]["Species_NorwegianName"].value_counts(). -/
def evening_activity_species (df : List TRow) : List String :=
  (value_counts ((df.filter is_evening_activity).filterMap
    (fun r => r.Species_NorwegianName))).map (fun p => p.1)

/-! ### C5: call-pattern classification by mean gap -/

/-- C5 (amended): for a species with at least two timestamped detections the
classification is determined by the mean gap in minutes between consecutive
time-sorted detections, with half-open boundaries as coded — mean < 5
"Clustered", 5 ≤ mean < 15 "Regular", mean ≥ 15 "Sporadic" (a mean of exactly
15 is Sporadic, not Regular); a species with exactly one timestamped detection
is "Single call" with no gap statistics. -/
theorem call_pattern_by_mean_gap (df : List TRow) (s : String) :
    (1 < (species_times df s).length →
      ((mean_gap_minutes df s < 5 → species_call_pattern df s = some "Clustered")
      ∧ (5 ≤ mean_gap_minutes df s → mean_gap_minutes df s < 15 →
          species_call_pattern df s = some "Regular")
      ∧ (15 ≤ mean_gap_minutes df s → species_call_pattern df s = some "Sporadic")))
    ∧ ((species_times df s).length = 1 →
        species_call_pattern df s = some "Single call"
        ∧ species_gap_statistics df s = none) := by
  constructor
  · intro hlen
    refine ⟨?_, ?_, ?_⟩
    · intro h5
      simp [species_call_pattern, hlen, classify_call_pattern, h5]
    · intro h5a h5b
      have h1 : ¬ mean_gap_minutes df s < 5 := not_lt.mpr h5a
      simp [species_call_pattern, hlen, classify_call_pattern, h1, h5b]
    · intro h15
      have h1 : ¬ mean_gap_minutes df s < 5 :=
        not_lt.mpr (le_trans (by norm_num) h15)
      have h2 : ¬ mean_gap_minutes df s < 15 := not_lt.mpr h15
      simp [species_call_pattern, hlen, classify_call_pattern, h1, h2]
  · intro hone
    have hn : ¬ 1 < (species_times df s).length := by omega
    constructor
    · simp [species_call_pattern, hn, hone]
    · simp [species_gap_statistics, hn]

/-- Two detections of one species exactly 15 minutes (900 s) apart. -/
def c5df : List TRow :=
  [{ Species_NorwegianName := some "x", detection_datetime := some 0 },
   { Species_NorwegianName := some "x", detection_datetime := some 900 }]

/-- Counterexample for C5: with a mean gap of exactly 15 minutes the claim's
"5-15 → Regular" band predicts Regular, but the code's Regular branch requires
mean < 15, so the species is classified Sporadic. -/
theorem mean_gap_fifteen_is_sporadic :
    mean_gap_minutes c5df "x" = 15
    ∧ species_call_pattern c5df "x" = some "Sporadic"
    ∧ species_call_pattern c5df "x" ≠ some "Regular" := by
  have hts : species_times c5df "x" = [0, 900] := by decide
  have hmean : mean_gap_minutes c5df "x" = 15 := by
    simp only [mean_gap_minutes, hts]
    norm_num [mean_gap_of, gap_minutes_of, consecGaps]
  refine ⟨hmean, ?_, ?_⟩
  · have hpat : species_call_pattern c5df "x"
        = some (classify_call_pattern (mean_gap_minutes c5df "x")) := by
      simp only [species_call_pattern, hts]
      norm_num
    rw [hpat, hmean]
    norm_num [classify_call_pattern]
  · have hpat : species_call_pattern c5df "x"
        = some (classify_call_pattern (mean_gap_minutes c5df "x")) := by
      simp only [species_call_pattern, hts]
      norm_num
    rw [hpat, hmean]
    norm_num [classify_call_pattern]
    decide

/-- Two detections of one species 10 minutes (600 s) apart. -/
def c5wdf : List TRow :=
  [{ Species_NorwegianName := some "x", detection_datetime := some 0 },
   { Species_NorwegianName := some "x", detection_datetime := some 600 }]

/-- Witness for the amended C5: a 10-minute mean gap classifies as Regular. -/
theorem call_pattern_by_mean_gap_witness :
    species_call_pattern c5wdf "x" = some "Regular" := by
  have hlen : 1 < (species_times c5wdf "x").length := by decide
  have hts : species_times c5wdf "x" = [0, 600] := by decide
  have hmean : mean_gap_minutes c5wdf "x" = 10 := by
    simp only [mean_gap_minutes, hts]
    norm_num [mean_gap_of, gap_minutes_of, consecGaps]
  exact ((call_pattern_by_mean_gap c5wdf "x").1 hlen).2.1
    (by rw [hmean]; norm_num) (by rw [hmean]; norm_num)

/-! ### C6: peak activity hour -/

theorem sorted_getLast_max {α : Type} :
    ∀ l : List (α × Nat), l.Sorted countLE →
      ∀ m : α × Nat, l.getLast? = some m → ∀ x ∈ l, x.2 ≤ m.2 := by
  intro l
  induction l with
  | nil =>
    intro _ m hm
    simp at hm
  | cons a t ih =>
    intro hs m hm x hx
    cases t with
    | nil =>
      simp at hm
      subst hm
      rcases List.mem_singleton.mp hx with rfl
      exact Nat.le_refl _
    | cons b t2 =>
      rw [List.getLast?_cons_cons] at hm
      have hcons := List.pairwise_cons.mp hs
      rcases List.mem_cons.mp hx with rfl | hx2
      · exact hcons.1 m (List.mem_of_getLast?_eq_some hm)
      · exact ih hcons.2 m hm x hx2

theorem value_counts_head_max {α : Type} [DecidableEq α] (l : List α) (p : α × Nat)
    (hp : (value_counts l).head? = some p) :
    p.1 ∈ l ∧ p.2 = l.count p.1 ∧ ∀ x : α, l.count x ≤ p.2 := by
  have hlast : (List.insertionSort countLE
      ((dedupFirst l).map (fun k => (k, l.count k)))).getLast? = some p := by
    rw [← List.head?_reverse]
    exact hp
  have hsorted := List.sorted_insertionSort countLE
    ((dedupFirst l).map (fun k => (k, l.count k)))
  have hperm := List.perm_insertionSort countLE
    ((dedupFirst l).map (fun k => (k, l.count k)))
  have hpmem : p ∈ (dedupFirst l).map (fun k => (k, l.count k)) :=
    hperm.mem_iff.mp (List.mem_of_getLast?_eq_some hlast)
  rcases List.mem_map.mp hpmem with ⟨k, hk, hkp⟩
  cases hkp
  refine ⟨(mem_dedupFirst l k).mp hk, rfl, ?_⟩
  intro x
  by_cases hx : x ∈ l
  · have hxpair : (x, l.count x) ∈ (dedupFirst l).map (fun u => (u, l.count u)) :=
      List.mem_map.mpr ⟨x, (mem_dedupFirst l x).mpr hx, rfl⟩
    exact sorted_getLast_max _ hsorted _ hlast _ (hperm.mem_iff.mpr hxpair)
  · rw [List.count_eq_zero_of_not_mem hx]
    exact Nat.zero_le _

/-- C6 (amended): for a species with at least one timestamped detection the
reported peak hour is an hour of that species' detections whose count is
maximal over all hour buckets; when several hours tie for the maximum the
choice follows the library's internal count-sort order, which is not the
numerically smallest tied hour. -/
theorem species_peak_hour_attains_max (df : List TRow) (s : String)
    (h : species_hours df s ≠ []) :
    ∃ h0 : Nat, species_peak_hour df s = some h0
      ∧ h0 ∈ species_hours df s
      ∧ ∀ hr : Nat,
          (species_hours df s).count hr ≤ (species_hours df s).count h0 := by
  rcases hhead : (value_counts (species_hours df s)).head? with _ | p
  · exfalso
    rw [List.head?_eq_none_iff] at hhead
    rcases hl : species_hours df s with _ | ⟨a, t⟩
    · exact h hl
    · have hmem : a ∈ species_hours df s := by
        rw [hl]
        exact List.mem_cons_self a t
      have hpair : (a, (species_hours df s).count a) ∈
          (dedupFirst (species_hours df s)).map
            (fun k => (k, (species_hours df s).count k)) :=
        List.mem_map.mpr ⟨a, (mem_dedupFirst _ a).mpr hmem, rfl⟩
      have hvc : (a, (species_hours df s).count a) ∈
          value_counts (species_hours df s) := by
        rw [value_counts]
        exact List.mem_reverse.mpr
          ((List.perm_insertionSort countLE _).mem_iff.mpr hpair)
      rw [hhead] at hvc
      exact absurd hvc (List.not_mem_nil _)
  · have hfacts := value_counts_head_max (species_hours df s) p hhead
    refine ⟨p.1, ?_, hfacts.1, ?_⟩
    · simp [species_peak_hour, hhead]
    · intro hr
      rw [← hfacts.2.1]
      exact hfacts.2.2 hr

/-- Three detections of one species on successive days: hours 7, 3 and 5 in
chronological order, one detection in each hour (a three-way tie). -/
def c6df : List TRow :=
  [{ Species_NorwegianName := some "x", detection_datetime := some 25200 },
   { Species_NorwegianName := some "x", detection_datetime := some 97200 },
   { Species_NorwegianName := some "x", detection_datetime := some 190800 }]

/-- Counterexample for C6: with hours 7, 3 and 5 tied at one detection each the
claim requires the numerically smallest hour 3, but value_counts + idxmax
reports hour 5 (the series is stable-sorted ascending by count and reversed,
so the tied key whose first chronological appearance is latest comes first) —
in particular not hour 3. -/
theorem peak_hour_tie_not_smallest :
    species_hours c6df "x" = [7, 3, 5]
    ∧ species_peak_hour c6df "x" = some 5
    ∧ species_peak_hour c6df "x" ≠ some 3 := by decide

/-- One detection of one species at 07:01 (25260 s). -/
def c6wdf : List TRow :=
  [{ Species_NorwegianName := some "x", detection_datetime := some 25260 }]

/-- Witness for the amended C6 at a concrete one-detection batch. -/
theorem species_peak_hour_attains_max_witness :
    ∃ h0 : Nat, species_peak_hour c6wdf "x" = some h0
      ∧ h0 ∈ species_hours c6wdf "x"
      ∧ ∀ hr : Nat,
          (species_hours c6wdf "x").count hr ≤ (species_hours c6wdf "x").count h0 :=
  species_peak_hour_attains_max c6wdf "x" (by decide)

/-! ### C7: dawn and evening windows -/

theorem mem_value_counts_keys {α : Type} [DecidableEq α] (l : List α) (x : α) :
    x ∈ (value_counts l).map (fun p => p.1) ↔ x ∈ l := by
  rw [value_counts]
  constructor
  · intro hx
    rcases List.mem_map.mp hx with ⟨p, hp, hpx⟩
    have hp3 : p ∈ (dedupFirst l).map (fun k => (k, l.count k)) :=
      (List.perm_insertionSort countLE _).mem_iff.mp (List.mem_reverse.mp hp)
    rcases List.mem_map.mp hp3 with ⟨k, hk, hkp⟩
    cases hkp
    cases hpx
    exact (mem_dedupFirst l k).mp hk
  · intro hx
    refine List.mem_map.mpr ⟨(x, l.count x), ?_, rfl⟩
    exact List.mem_reverse.mpr ((List.perm_insertionSort countLE _).mem_iff.mpr
      (List.mem_map.mpr ⟨x, (mem_dedupFirst l x).mpr hx, rfl⟩))

theorem is_dawn_chorus_iff (r : TRow) :
    is_dawn_chorus r = true ↔ ∃ h : Nat, hourOf r = some h ∧ 4 ≤ h ∧ h ≤ 8 := by
  cases hh : hourOf r with
  | none => simp [is_dawn_chorus, hh]
  | some v => simp [is_dawn_chorus, hh]

theorem is_evening_activity_iff (r : TRow) :
    is_evening_activity r = true ↔ ∃ h : Nat, hourOf r = some h ∧ 17 ≤ h ∧ h ≤ 21 := by
  cases hh : hourOf r with
  | none => simp [is_evening_activity, hh]
  | some v => simp [is_evening_activity, hh]

/-- C7 (amended): the dawn-window species set contains exactly the species with
a detection whose hour h satisfies 4 ≤ h ≤ 8 — both bounds inclusive, so hour 8
is in the dawn window — and the evening-window set exactly those with a
detection at 17 ≤ h ≤ 21, hour 21 included (pandas between is inclusive). -/
theorem dawn_evening_window_membership (df : List TRow) (s : String) :
    (s ∈ dawn_chorus_species df ↔
      ∃ r ∈ df, r.Species_NorwegianName = some s
        ∧ ∃ h : Nat, hourOf r = some h ∧ 4 ≤ h ∧ h ≤ 8)
    ∧ (s ∈ evening_activity_species df ↔
      ∃ r ∈ df, r.Species_NorwegianName = some s
        ∧ ∃ h : Nat, hourOf r = some h ∧ 17 ≤ h ∧ h ≤ 21) := by
  constructor
  · rw [dawn_chorus_species, mem_value_counts_keys, List.mem_filterMap]
    constructor
    · rintro ⟨r, hr, hname⟩
      rcases List.mem_filter.mp hr with ⟨hrdf, hdawn⟩
      exact ⟨r, hrdf, hname, (is_dawn_chorus_iff r).mp hdawn⟩
    · rintro ⟨r, hrdf, hname, hex⟩
      exact ⟨r, List.mem_filter.mpr ⟨hrdf, (is_dawn_chorus_iff r).mpr hex⟩, hname⟩
  · rw [evening_activity_species, mem_value_counts_keys, List.mem_filterMap]
    constructor
    · rintro ⟨r, hr, hname⟩
      rcases List.mem_filter.mp hr with ⟨hrdf, heve⟩
      exact ⟨r, hrdf, hname, (is_evening_activity_iff r).mp heve⟩
    · rintro ⟨r, hrdf, hname, hex⟩
      exact ⟨r, List.mem_filter.mpr ⟨hrdf, (is_evening_activity_iff r).mpr hex⟩, hname⟩

/-- One detection at exactly 08:00:00 and one at 21:01:00. -/
def c7df : List TRow :=
  [{ Species_NorwegianName := some "x", detection_datetime := some 28800 },
   { Species_NorwegianName := some "y", detection_datetime := some 75660 }]

/-- Counterexample for C7: the claim's exclusive upper bounds put hour 8 outside
the dawn window and hour 21 outside the evening window, but the code's
inclusive between(4, 8) and between(17, 21) admit both: the hour-8 species is
in the dawn set and the hour-21 species in the evening set. -/
theorem boundary_hours_inside_windows :
    hourOf { Species_NorwegianName := some "x", detection_datetime := some 28800 } = some 8
    ∧ hourOf { Species_NorwegianName := some "y", detection_datetime := some 75660 } = some 21
    ∧ "x" ∈ dawn_chorus_species c7df
    ∧ "y" ∈ evening_activity_species c7df := by decide

/-! ### C10: rows without a resolved species name -/

theorem filterMap_species_filter_isSome (df : List TRow) :
    (df.filter (fun r => r.Species_NorwegianName.isSome)).filterMap
        (fun r => r.Species_NorwegianName) =
      df.filterMap (fun r => r.Species_NorwegianName) := by
  induction df with
  | nil => rfl
  | cons r t ih =>
    rcases hr : r.Species_NorwegianName with _ | v
    · simp [List.filter_cons, List.filterMap_cons, hr, ih]
    · simp [List.filter_cons, List.filterMap_cons, hr, ih]

theorem filter_species_filter_isSome (df : List TRow) (s : String) :
    (df.filter (fun r => r.Species_NorwegianName.isSome)).filter
        (fun r => r.Species_NorwegianName == some s) =
      df.filter (fun r => r.Species_NorwegianName == some s) := by
  induction df with
  | nil => rfl
  | cons r t ih =>
    rcases hr : r.Species_NorwegianName with _ | v
    · simp [List.filter_cons, hr, ih]
    · cases hps : (some v == some s)
      · simp [List.filter_cons, hr, hps, ih]
      · simp [List.filter_cons, hr, hps, ih]

theorem mk_species_pattern_filter_isSome (df : List TRow) (s : String) :
    mk_species_pattern (df.filter (fun r => r.Species_NorwegianName.isSome)) s =
      mk_species_pattern df s := by
  have h := filter_species_filter_isSome df s
  simp only [mk_species_pattern, species_peak_hour, species_call_pattern,
    species_gap_statistics, species_gap_minutes, mean_gap_minutes, species_times,
    species_hours, species_sorted, species_rows]
  simp only [h]

/-- C10: detections with a missing species name contribute to no per-species
temporal profile — the per-species analysis output on a batch equals its output
on the batch restricted to rows with a resolved name — while the aggregate
hourly activity count is the sum of the contributions of named and unnamed
rows, so such detections still count there. -/
theorem unnamed_rows_excluded_from_species_profiles (df : List TRow) :
    analyze_species_temporal_patterns
        (df.filter (fun r => r.Species_NorwegianName.isSome)) =
      analyze_species_temporal_patterns df
    ∧ ∀ h : Nat, hourly_activity df h =
        hourly_activity (df.filter (fun r => r.Species_NorwegianName.isSome)) h
        + hourly_activity (df.filter (fun r => r.Species_NorwegianName.isNone)) h := by
  constructor
  · simp only [analyze_species_temporal_patterns, species_names_of,
      filterMap_species_filter_isSome]
    refine List.map_congr_left ?_
    intro s _
    rw [mk_species_pattern_filter_isSome]
  · intro h
    induction df with
    | nil => rfl
    | cons r t ih =>
      simp only [hourly_activity, List.filter_filter] at ih ⊢
      rcases hr : r.Species_NorwegianName with _ | v <;>
        cases hp : (hourOf r == some h) <;>
          simp [List.filter_cons, List.filter_filter, hr, hp] <;> omega

/-! ## Segment selection model (src/functions/splitter_lydfilen.py)

split_audio_by_detection groups the enriched detections by Species_NorwegianName
(pandas groupby drops the NaN key and sorts the remaining keys) and keeps, per
group, the nlargest(max_segments_per_species, "confidence") rows; nlargest with
its default keep="first" ranks by confidence descending and prefers earlier
rows on ties, which is modelled by sorting the index-tagged rows by the linear
order (confidence descending, original position ascending) and taking the cap.
Only the selection step is modelled; the pydub export of each selected segment
is I/O performed downstream of it. -/

structure SRow where
  Species_NorwegianName : Option String
  confidence : Rat
deriving DecidableEq

/-- DataFrame rows tagged with their positional index (stable input order). -/
def withIdx : Nat → List SRow → List (Nat × SRow)
  | _, [] => []
  | i, r :: t => (i, r) :: withIdx (i + 1) t

theorem mem_withIdx (l : List SRow) :
    ∀ (i : Nat) (p : Nat × SRow), p ∈ withIdx i l → p.2 ∈ l := by
  induction l with
  | nil =>
    intro i p hp
    simp [withIdx] at hp
  | cons r t ih =>
    intro i p hp
    rcases List.mem_cons.mp hp with rfl | hp2
    · exact List.mem_cons_self r t
    · exact List.mem_cons_of_mem r (ih (i + 1) p hp2)

/-- nlargest ranking: higher confidence first, ties by earlier original
position (keep="first"). -/
def selOrder (a b : Nat × SRow) : Prop :=
  b.2.confidence < a.2.confidence
    ∨ (a.2.confidence = b.2.confidence ∧ a.1 ≤ b.1)

instance : DecidableRel selOrder := fun a b =>
  inferInstanceAs (Decidable (b.2.confidence < a.2.confidence
    ∨ (a.2.confidence = b.2.confidence ∧ a.1 ≤ b.1)))

instance : IsTotal (Nat × SRow) selOrder :=
  ⟨fun a b => by
    rcases lt_trichotomy a.2.confidence b.2.confidence with hlt | heq | hgt
    · exact Or.inr (Or.inl hlt)
    · rcases Nat.le_total a.1 b.1 with hij | hij
      · exact Or.inl (Or.inr ⟨heq, hij⟩)
      · exact Or.inr (Or.inr ⟨heq.symm, hij⟩)
    · exact Or.inl (Or.inl hgt)⟩

instance : IsTrans (Nat × SRow) selOrder :=
  ⟨fun a b c hab hbc => by
    rcases hab with hab | ⟨hab1, hab2⟩
    · rcases hbc with hbc | ⟨hbc1, hbc2⟩
      · exact Or.inl (lt_trans hbc hab)
      · exact Or.inl (hbc1 ▸ hab)
    · rcases hbc with hbc | ⟨hbc1, hbc2⟩
      · exact Or.inl (hab1 ▸ hbc)
      · exact Or.inr ⟨hab1.trans hbc1, Nat.le_trans hab2 hbc2⟩⟩

/-- One group's selection: the rows of species n ranked by selOrder, capped. -/
def group_nlargest (cap : Nat) (indexed : List (Nat × SRow)) (n : String) :
    List (Nat × SRow) :=
  (List.insertionSort selOrder
    (indexed.filter (fun p => p.2.Species_NorwegianName == some n))).take cap

/-- groupby group keys: the distinct resolved names, sorted (groupby sort=True);
the NaN key is dropped. -/
def sorted_group_names (rows : List SRow) : List String :=
  List.insertionSort (fun a b => a ≤ b)
    (dedupFirst (rows.filterMap (fun r => r.Species_NorwegianName)))

/-- selected_detections, src/functions/splitter_lydfilen.py lines 57-64:
per-species top-confidence rows, concatenated group by group. -/
def split_audio_selection (rows : List SRow) (cap : Nat) : List (Nat × SRow) :=
  (sorted_group_names rows).flatMap (fun n => group_nlargest cap (withIdx 0 rows) n)

/-- C9: segment selection groups by resolved species name with unresolved rows
excluded entirely, keeps per group the cap highest-confidence rows — every kept
row beats every discarded row of its group on confidence, with equal-confidence
ties broken by the earlier stable input position — keeps min(cap, group size)
rows per group, and a cap of zero selects nothing. -/
theorem segment_selection_spec (rows : List SRow) (cap : Nat) :
    (∀ p ∈ split_audio_selection rows cap, p.2.Species_NorwegianName.isSome = true)
    ∧ (cap = 0 → split_audio_selection rows cap = [])
    ∧ (∀ n : String, (group_nlargest cap (withIdx 0 rows) n).length =
        min cap (((withIdx 0 rows).filter
          (fun p => p.2.Species_NorwegianName == some n)).length))
    ∧ (∀ (n : String) (a b : Nat × SRow),
        a ∈ group_nlargest cap (withIdx 0 rows) n →
        b ∈ (withIdx 0 rows).filter (fun p => p.2.Species_NorwegianName == some n) →
        b ∉ group_nlargest cap (withIdx 0 rows) n →
        (b.2.confidence < a.2.confidence
          ∨ (a.2.confidence = b.2.confidence ∧ a.1 ≤ b.1))) := by
  refine ⟨?_, ?_, ?_, ?_⟩
  · intro p hp
    rcases List.mem_flatMap.mp hp with ⟨n, hn, hpn⟩
    have hps : p ∈ List.insertionSort selOrder ((withIdx 0 rows).filter
        (fun q => q.2.Species_NorwegianName == some n)) :=
      List.take_subset _ _ hpn
    have hcond := (List.mem_filter.mp
      ((List.perm_insertionSort selOrder _).mem_iff.mp hps)).2
    rcases hname : p.2.Species_NorwegianName with _ | v
    · rw [hname] at hcond
      simp at hcond
    · rfl
  · intro hc
    subst hc
    simp [split_audio_selection, group_nlargest]
  · intro n
    rw [group_nlargest, List.length_take,
      (List.perm_insertionSort selOrder _).length_eq]
  · intro n a b ha hb hnb
    have hsorted := List.sorted_insertionSort selOrder ((withIdx 0 rows).filter
      (fun p => p.2.Species_NorwegianName == some n))
    have hsplit := List.take_append_drop cap (List.insertionSort selOrder
      ((withIdx 0 rows).filter (fun p => p.2.Species_NorwegianName == some n)))
    have hbs : b ∈ List.insertionSort selOrder ((withIdx 0 rows).filter
        (fun p => p.2.Species_NorwegianName == some n)) :=
      (List.perm_insertionSort selOrder _).mem_iff.mpr hb
    rw [← hsplit] at hbs
    rcases List.mem_append.mp hbs with hbt | hbd
    · exact absurd hbt hnb
    · have hpw := hsorted
      rw [← hsplit] at hpw
      exact (List.pairwise_append.mp hpw).2.2 a ha b hbd

/-- Four detections: three of species "x" with confidences 1, 3, 2 and one
with no resolved name. -/
def c9rows : List SRow :=
  [{ Species_NorwegianName := some "x", confidence := 1 },
   { Species_NorwegianName := none, confidence := 5 },
   { Species_NorwegianName := some "x", confidence := 3 },
   { Species_NorwegianName := some "x", confidence := 2 }]

/-- Witness for C9 at cap 2: the selected row (index 2, confidence 3) has a
resolved name, and it dominates the discarded row (index 0, confidence 1). -/
theorem segment_selection_spec_witness :
    (SRow.Species_NorwegianName { Species_NorwegianName := some "x", confidence := 3 }).isSome = true
    ∧ ((1 : Rat) < 3 ∨ ((3 : Rat) = 1 ∧ (2 : Nat) ≤ 0)) :=
  ⟨(segment_selection_spec c9rows 2).1
      (2, { Species_NorwegianName := some "x", confidence := 3 }) (by decide),
   (segment_selection_spec c9rows 2).2.2.2 "x"
      (2, { Species_NorwegianName := some "x", confidence := 3 })
      (0, { Species_NorwegianName := some "x", confidence := 1 })
      (by decide) (by decide) (by decide)⟩

/-! ## Timestamp extraction model
(extract_timestamp_from_filename, src/functions/temporal_analysis.py lines 8-64)

The function applies eight regex patterns in order with re.search and returns
the first successful strptime parse; a pattern whose leftmost match exists but
fails to parse (strptime raises) falls through to the next pattern without
retrying later positions, which is modelled by separating the leftmost-match
search from validation.  The patterns are fixed-shape (digit runs and literal
separators, no backtracking), so matching at a position is deterministic and
re.search is a left-to-right scan of start positions.  Python \d is modelled as
the ASCII digits appearing in the modelled filenames. -/

/-- A naive datetime as produced by strptime / fromtimestamp. -/
structure PyDateTime where
  year : Nat
  month : Nat
  day : Nat
  hour : Nat
  minute : Nat
  second : Nat
deriving DecidableEq

/-- Consume exactly n ASCII digits, returning their value and the rest. -/
def takeNumber : Nat → List Char → Option (Nat × List Char)
  | 0, cs => some (0, cs)
  | _ + 1, [] => none
  | n + 1, c :: cs =>
    if c.isDigit then
      match takeNumberAux (c.toNat - 48) n cs with
      | some r => some r
      | none => none
    else none
where
  takeNumberAux : Nat → Nat → List Char → Option (Nat × List Char)
  | acc, 0, cs => some (acc, cs)
  | _, _ + 1, [] => none
  | acc, n + 1, c :: cs =>
    if c.isDigit then takeNumberAux (acc * 10 + (c.toNat - 48)) n cs else none

/-- Consume one expected literal character. -/
def expectChar (c : Char) : List Char → Option (List Char)
  | [] => none
  | x :: xs => if x = c then some xs else none

/-- re.search: scan match-start positions left to right, first hit wins. -/
def searchPos {β : Type} (m : List Char → Option β) : List Char → Option β
  | [] => m []
  | c :: cs =>
    match m (c :: cs) with
    | some g => some g
    | none => searchPos m cs

/-- Proleptic-Gregorian leap year, as used by datetime. -/
def isLeapYear (y : Nat) : Bool :=
  (y % 4 == 0) && ((y % 100 != 0) || (y % 400 == 0))

/-- Days in a month. -/
def daysInMonth (y m : Nat) : Nat :=
  if m == 2 then (if isLeapYear y then 29 else 28)
  else if m == 4 || m == 6 || m == 9 || m == 11 then 30
  else 31

/-- strptime validation: year 1-9999, month 1-12, day within the month, and a
valid time of day; an out-of-range component raises ValueError (modelled as
none). -/
def mkValidDateTime (y mo d h mi s : Nat) : Option PyDateTime :=
  if 1 ≤ y ∧ 1 ≤ mo ∧ mo ≤ 12 ∧ 1 ≤ d ∧ d ≤ daysInMonth y mo
      ∧ h ≤ 23 ∧ mi ≤ 59 ∧ s ≤ 59 then
    some { year := y, month := mo, day := d, hour := h, minute := mi, second := s }
  else none

/-- Pattern 1 at a position: underscore, 8 digits, underscore, 6 digits. -/
def matchP1At (cs : List Char) : Option (Nat × Nat × Nat × Nat × Nat × Nat) := do
  let r0 ← expectChar '_' cs
  let (y, r1) ← takeNumber 4 r0
  let (mo, r2) ← takeNumber 2 r1
  let (d, r3) ← takeNumber 2 r2
  let r4 ← expectChar '_' r3
  let (h, r5) ← takeNumber 2 r4
  let (mi, r6) ← takeNumber 2 r5
  let (s, _) ← takeNumber 2 r6
  pure (y, mo, d, h, mi, s)

/-- Pattern 2 at a position: YYYY-MM-DD_HH-MM-SS. -/
def matchP2At (cs : List Char) : Option (Nat × Nat × Nat × Nat × Nat × Nat) := do
  let (y, r1) ← takeNumber 4 cs
  let r1 ← expectChar '-' r1
  let (mo, r2) ← takeNumber 2 r1
  let r2 ← expectChar '-' r2
  let (d, r3) ← takeNumber 2 r2
  let r3 ← expectChar '_' r3
  let (h, r4) ← takeNumber 2 r3
  let r4 ← expectChar '-' r4
  let (mi, r5) ← takeNumber 2 r4
  let r5 ← expectChar '-' r5
  let (s, _) ← takeNumber 2 r5
  pure (y, mo, d, h, mi, s)

/-- Pattern 3 at a position: YYYYMMDDTHHMMSS. -/
def matchP3At (cs : List Char) : Option (Nat × Nat × Nat × Nat × Nat × Nat) := do
  let (y, r1) ← takeNumber 4 cs
  let (mo, r2) ← takeNumber 2 r1
  let (d, r3) ← takeNumber 2 r2
  let r4 ← expectChar 'T' r3
  let (h, r5) ← takeNumber 2 r4
  let (mi, r6) ← takeNumber 2 r5
  let (s, _) ← takeNumber 2 r6
  pure (y, mo, d, h, mi, s)

/-- Pattern 4 (anchored at the start): YYYYMMDD_HHMMSS. -/
def matchP4At (cs : List Char) : Option (Nat × Nat × Nat × Nat × Nat × Nat) := do
  let (y, r1) ← takeNumber 4 cs
  let (mo, r2) ← takeNumber 2 r1
  let (d, r3) ← takeNumber 2 r2
  let r4 ← expectChar '_' r3
  let (h, r5) ← takeNumber 2 r4
  let (mi, r6) ← takeNumber 2 r5
  let (s, _) ← takeNumber 2 r6
  pure (y, mo, d, h, mi, s)

/-- Pattern 5 at a position: YYYY_MM_DD_HH_MM_SS. -/
def matchP5At (cs : List Char) : Option (Nat × Nat × Nat × Nat × Nat × Nat) := do
  let (y, r1) ← takeNumber 4 cs
  let r1 ← expectChar '_' r1
  let (mo, r2) ← takeNumber 2 r1
  let r2 ← expectChar '_' r2
  let (d, r3) ← takeNumber 2 r2
  let r3 ← expectChar '_' r3
  let (h, r4) ← takeNumber 2 r3
  let r4 ← expectChar '_' r4
  let (mi, r5) ← takeNumber 2 r4
  let r5 ← expectChar '_' r5
  let (s, _) ← takeNumber 2 r5
  pure (y, mo, d, h, mi, s)

/-- Pattern 6 at a position: YYYY-MM-DD-HH-MM-SS. -/
def matchP6At (cs : List Char) : Option (Nat × Nat × Nat × Nat × Nat × Nat) := do
  let (y, r1) ← takeNumber 4 cs
  let r1 ← expectChar '-' r1
  let (mo, r2) ← takeNumber 2 r1
  let r2 ← expectChar '-' r2
  let (d, r3) ← takeNumber 2 r2
  let r3 ← expectChar '-' r3
  let (h, r4) ← takeNumber 2 r3
  let r4 ← expectChar '-' r4
  let (mi, r5) ← takeNumber 2 r4
  let r5 ← expectChar '-' r5
  let (s, _) ← takeNumber 2 r5
  pure (y, mo, d, h, mi, s)

/-- Pattern 7 at a position: underscore, 8 digits, 4 digits, not followed by a
digit (the regex negative lookahead). -/
def matchP7At (cs : List Char) : Option Unit := do
  let r0 ← expectChar '_' cs
  let (_, r1) ← takeNumber 8 r0
  let (_, r2) ← takeNumber 4 r1
  match r2 with
  | [] => pure ()
  | c :: _ => if c.isDigit then none else pure ()

/-- Pattern 8 at a position: ten consecutive digits (a Unix timestamp). -/
def matchP8At (cs : List Char) : Option Nat := do
  let (v, _) ← takeNumber 10 cs
  pure v

/-- Search for a six-component pattern, then strptime-validate the leftmost
match (a match that fails validation does not retry later positions: the source
moves on to the next pattern). -/
def tryPattern (m : List Char → Option (Nat × Nat × Nat × Nat × Nat × Nat))
    (cs : List Char) : Option PyDateTime :=
  match searchPos m cs with
  | some (y, mo, d, h, mi, s) => mkValidDateTime y mo d h mi s
  | none => none

/-- Pattern 4 is anchored (^): only position zero is tried. -/
def tryP4 (cs : List Char) : Option PyDateTime :=
  match matchP4At cs with
  | some (y, mo, d, h, mi, s) => mkValidDateTime y mo d h mi s
  | none => none

/-- Pattern 7 always fails to parse: the source joins the two groups with an
underscore ("DDDDDDDD_DDDD") but parses with the separator-free format
"%Y%m%d%H%M", so strptime raises at the underscore on every match and the loop
falls through to the next pattern. -/
def tryP7 (cs : List Char) : Option PyDateTime :=
  match searchPos matchP7At cs with
  | some _ => none
  | none => none

/-- datetime.fromtimestamp for a nonnegative epoch second count, modelled at
UTC (CPython applies the local timezone; the timeline origin is a midnight
either way).  Standard civil-from-days conversion. -/
def fromtimestamp (t : Nat) : PyDateTime :=
  let days := t / 86400
  let secs := t % 86400
  let z := days + 719468
  let era := z / 146097
  let doe := z % 146097
  let yoe := (doe - doe / 1460 + doe / 36524 - doe / 146097) / 365
  let y := yoe + era * 400
  let doy := doe - (365 * yoe + yoe / 4 - yoe / 100)
  let mp := (5 * doy + 2) / 153
  let d := doy - (153 * mp + 2) / 5 + 1
  let m := if mp < 10 then mp + 3 else mp - 9
  { year := if m ≤ 2 then y + 1 else y
    month := m
    day := d
    hour := secs / 3600
    minute := secs % 3600 / 60
    second := secs % 60 }

/-- Pattern 8: first 10-digit run anywhere, read as a Unix timestamp. -/
def tryP8 (cs : List Char) : Option PyDateTime :=
  (searchPos matchP8At cs).map fromtimestamp

/-- extract_timestamp_from_filename: the eight patterns applied in the source's
order, first successful parse wins, None when every pattern fails. -/
def extract_timestamp_from_filename (filename : String) : Option PyDateTime :=
  let cs := filename.toList
  tryPattern matchP1At cs <|> tryPattern matchP2At cs <|> tryPattern matchP3At cs
    <|> tryP4 cs <|> tryPattern matchP5At cs <|> tryPattern matchP6At cs
    <|> tryP7 cs <|> tryP8 cs

/-- A pattern earlier in the chain wins over everything after it: the first
successful parse is returned (ordered fallback contract). -/
theorem extract_first_success (filename : String) (dt : PyDateTime)
    (h : tryPattern matchP1At filename.toList = some dt) :
    extract_timestamp_from_filename filename = some dt := by
  simp only [String.toList] at h
  simp [extract_timestamp_from_filename, h]

/-- C8: the patterns are applied in a fixed order with the first successful
parse returned; in particular the recorder filename with an embedded
_YYYYMMDD_HHMMSS block parses to 2025-05-21T19:00:02 via the first pattern, and
a filename with no timestamp yields none. -/
theorem extract_timestamp_examples :
    extract_timestamp_from_filename "rec_2MA06968_20250521_190002.wav" =
      some { year := 2025, month := 5, day := 21, hour := 19, minute := 0, second := 2 }
    ∧ extract_timestamp_from_filename "no_timestamp_here.wav" = none := by decide

end Fuglelyd
